import Mathlib

/-!
Verification of the LunarLog amalgamation tool (`tools/merge_files.py`).

The script function `merge_files(source_file_path, target_file_path)` reads the
source file, locates the literal boundary token
`#include <nlohmann/json.hpp>`, slices the source content starting at the
token index plus the length of the token followed by a newline, reads the
target file, locates the literal multi-line marker (a newline, the two
banner comment lines, and a trailing newline), truncates the target at the
end of the first marker occurrence, appends the payload, writes the result
back to the target file and prints a success message.  Any exception is
caught and printed as `An error occurred: ...`; the process always exits
with status 0.

The embedding below models file contents as `List Char`, the file system
as an association list from paths to contents, Python `str.find` as
`findSub`, and the two exception sites (`ValueError`) together with the
`open` failures as an `Except` value that the outer handler turns into a
printed message on standard output.
-/

namespace LunarLog

/-- A file system: an association list from paths to text contents.
`merge_files` only ever touches the two paths it is given. -/
abbrev FS : Type := List (String × List Char)

/-- Reading a file: the content stored under the first matching path,
or `none` when the path is absent (Python open-for-read raising
`FileNotFoundError`). -/
def fsRead : FS → String → Option (List Char)
  | [], _ => none
  | (q, c) :: rest, p => if q = p then some c else fsRead rest p

/-- Writing a file (Python open-for-write followed by `write`): replaces
the content stored under the path, creating the entry when absent. -/
def fsWrite : FS → String → List Char → FS
  | [], p, c => [(p, c)]
  | (q, d) :: rest, p, c => if q = p then (p, c) :: rest else (q, d) :: fsWrite rest p c

/-- Python `hay.find(needle)`: index of the first occurrence of `needle`
as a contiguous substring of `hay`, `none` when there is none (Python
returns `-1` there). -/
def findSub : List Char → List Char → Option Nat
  | [], needle => if needle.isEmpty then some 0 else none
  | c :: t, needle =>
    if needle.isPrefixOf (c :: t) then some 0
    else Option.map (fun n => n + 1) (findSub t needle)

/-- `needle` occurs in `hay` at index `i`. -/
def occursAt (hay needle : List Char) (i : Nat) : Bool :=
  needle.isPrefixOf (hay.drop i)

/-- The boundary token searched for in the source file
(the literal searched for on line 8 of the script). -/
def includeToken : List Char := "#include <nlohmann/json.hpp>".data

/-- The token together with its trailing newline, whose length is the
slice offset used on line 12 of the script: the length of the token
together with its trailing newline. -/
def includeLine : List Char := "#include <nlohmann/json.hpp>\n".data

/-- The two banner comment lines, each ending in a newline. -/
def bannerBlock : List Char := "// LunarECL (Minseok Kim)\n// https://github.com/LunarECL/LunarLog\n".data

/-- The marker searched for in the target file: the triple-quoted
`target_marker` literal of lines 19-22, a newline followed by the two
banner lines with their trailing newline. -/
def targetMarker : List Char := "\n// LunarECL (Minseok Kim)\n// https://github.com/LunarECL/LunarLog\n".data

/-- The ASCII apostrophe used by Python when rendering a path inside a
`FileNotFoundError` message. -/
def quoteChar : Char := Char.ofNat 39

/-- `str(FileNotFoundError)` for a missing path, as CPython formats it. -/
def fileNotFoundMsg (p : String) : List Char :=
  "[Errno 2] No such file or directory: ".data ++ quoteChar :: (p.data ++ [quoteChar])

/-- The `ValueError` message of line 10: the token followed by
` not found in ` and the source path. -/
def includeNotFoundMsg (p : String) : List Char :=
  includeToken ++ " not found in ".data ++ p.data

/-- The `ValueError` message of line 26: `Marker not found in ` followed
by the target path.  The marker text itself is not part of the message. -/
def markerNotFoundMsg (p : String) : List Char :=
  "Marker not found in ".data ++ p.data

/-- The success message printed on line 35. -/
def successMsg : List Char := "Files merged successfully.".data

/-- The prefix added by the `except` handler on line 37
(`f"An error occurred: {e}"`). -/
def errorPrefix : List Char := "An error occurred: ".data

/-- The exceptions that can escape the `try` block: the two `ValueError`s
raised for a missing token or marker (the spec calls this condition
`MarkerNotFoundError`), and the I/O errors raised by `open`. -/
inductive MergeError : Type
  | markerNotFound : List Char → MergeError
  | ioError : List Char → MergeError
  deriving DecidableEq

/-- `str(e)`: the message carried by an exception. -/
def errMsg : MergeError → List Char
  | MergeError.markerNotFound m => m
  | MergeError.ioError m => m

instance {ε α : Type} [DecidableEq ε] [DecidableEq α] : DecidableEq (Except ε α) := fun a b =>
  match a, b with
  | Except.ok x, Except.ok y =>
    if h : x = y then Decidable.isTrue (by rw [h])
    else Decidable.isFalse (by intro hc; cases hc; exact h rfl)
  | Except.ok _, Except.error _ => Decidable.isFalse (by intro hc; cases hc)
  | Except.error _, Except.ok _ => Decidable.isFalse (by intro hc; cases hc)
  | Except.error x, Except.error y =>
    if h : x = y then Decidable.isTrue (by rw [h])
    else Decidable.isFalse (by intro hc; cases hc; exact h rfl)

/-- Line 12 of the script: the source content sliced from the token index
plus the length of the token-plus-newline literal, to the end of text. -/
def contentToCopy (source_content : List Char) (include_index : Nat) : List Char :=
  source_content.drop (include_index + includeLine.length)

/-- The body of the `try` block of `merge_files` (lines 2-35): read the
source, find the token, slice the payload, read the target, find the
marker, truncate the target after the marker, append the payload, write
the target.  Each failure site becomes the exception the Python code
raises there. -/
def mergeCore (fs : FS) (source_file_path target_file_path : String) :
    Except MergeError (FS × List Char) :=
  match fsRead fs source_file_path with
  | none => Except.error (MergeError.ioError (fileNotFoundMsg source_file_path))
  | some source_content =>
    match findSub source_content includeToken with
    | none => Except.error (MergeError.markerNotFound (includeNotFoundMsg source_file_path))
    | some include_index =>
      let content_to_copy := contentToCopy source_content include_index
      match fsRead fs target_file_path with
      | none => Except.error (MergeError.ioError (fileNotFoundMsg target_file_path))
      | some target_content =>
        match findSub target_content targetMarker with
        | none => Except.error (MergeError.markerNotFound (markerNotFoundMsg target_file_path))
        | some target_marker_index =>
          let new_target_content :=
            target_content.take (target_marker_index + targetMarker.length) ++ content_to_copy
          Except.ok (fsWrite fs target_file_path new_target_content, successMsg)

/-- The streams a message can be printed on.  The script only ever calls
`print`, which writes to standard output. -/
inductive StdStream : Type
  | out : StdStream
  | err : StdStream
  deriving DecidableEq

/-- The whole of `merge_files`, `try`/`except` included: on success the
file system is updated and the success message is printed; on any
exception the handler of lines 36-37 prints `An error occurred: ` and the
exception text, the file system untouched.  The result is the final file
system and the printed messages with their stream. -/
def merge_files (fs : FS) (source_file_path target_file_path : String) :
    FS × List (StdStream × List Char) :=
  match mergeCore fs source_file_path target_file_path with
  | Except.ok (fs2, msg) => (fs2, [(StdStream.out, msg)])
  | Except.error e => (fs, [(StdStream.out, errorPrefix ++ errMsg e)])

/-- Running the script (`python merge_files.py`): `merge_files` swallows
every exception, so the interpreter always terminates normally and the
process exit status is 0.  The result adds that exit status. -/
def runScript (fs : FS) (source_file_path target_file_path : String) :
    FS × List (StdStream × List Char) × Nat :=
  ((merge_files fs source_file_path target_file_path).1,
   (merge_files fs source_file_path target_file_path).2, 0)

/-- Index just past the first newline at or after the start of `l`, or
`l.length` when `l` has no newline: the distance to the end of the
current line. -/
def lineEndAux : List Char → Nat
  | [] => 0
  | c :: t => if c = '\n' then 1 else 1 + lineEndAux t

/-- Modelled from the spec: the payload as the spec words it, `the source
text from the end of the token line to end-of-text` for a token
occurrence at index `i` — everything after the first newline at or after
the end of the token (or nothing when no newline follows).  This is the
spec-side definition used to compare against `contentToCopy`. -/
def specPayloadAfterTokenLine (src : List Char) (i : Nat) : List Char :=
  src.drop (i + includeToken.length + lineEndAux (src.drop (i + includeToken.length)))

/-! ### File-system lemmas -/

theorem fsRead_fsWrite_self (fs : FS) (p : String) (c : List Char) :
    fsRead (fsWrite fs p c) p = some c := by
  induction fs with
  | nil => simp [fsWrite, fsRead]
  | cons hd tl ih =>
    obtain ⟨q, d⟩ := hd
    by_cases h : q = p
    · simp [fsWrite, h, fsRead]
    · simp [fsWrite, h, fsRead, ih]

theorem fsRead_fsWrite_ne (fs : FS) (p r : String) (c : List Char) (h : r ≠ p) :
    fsRead (fsWrite fs p c) r = fsRead fs r := by
  have hpr : p ≠ r := Ne.symm h
  induction fs with
  | nil => simp [fsWrite, fsRead, hpr]
  | cons hd tl ih =>
    obtain ⟨q, d⟩ := hd
    by_cases hq : q = p
    · subst hq
      simp [fsWrite, fsRead, hpr]
    · simp [fsWrite, hq, fsRead, ih]

theorem fsWrite_fsWrite (fs : FS) (p : String) (c d : List Char) :
    fsWrite (fsWrite fs p c) p d = fsWrite fs p d := by
  induction fs with
  | nil => simp [fsWrite]
  | cons hd tl ih =>
    obtain ⟨q, e⟩ := hd
    by_cases h : q = p
    · simp [fsWrite, h]
    · simp [fsWrite, h, ih]

/-! ### Characterization of `findSub` by occurrences -/

theorem isPrefixOf_iff {l₁ l₂ : List Char} : l₁.isPrefixOf l₂ = true ↔ l₁ <+: l₂ :=
  List.isPrefixOf_iff_prefix

theorem eq_nil_of_isPrefix_nil {l : List Char} (h : l <+: []) : l = [] :=
  List.prefix_nil.mp h

theorem isPrefix_iff_eq_take {l₁ l₂ : List Char} : l₁ <+: l₂ ↔ l₁ = l₂.take l₁.length :=
  List.prefix_iff_eq_take

theorem isPrefix_append_right (l₁ l₂ : List Char) : l₁ <+: l₁ ++ l₂ :=
  List.prefix_append l₁ l₂

theorem take_isPrefix (n : Nat) (l : List Char) : l.take n <+: l :=
  List.take_prefix n l

theorem occursAt_zero (hay needle : List Char) :
    occursAt hay needle 0 = needle.isPrefixOf hay := rfl

theorem occursAt_succ (c : Char) (t needle : List Char) (k : Nat) :
    occursAt (c :: t) needle (k + 1) = occursAt t needle k := rfl

/-- `findSub` only returns genuine occurrences, and only the first one. -/
theorem findSub_some :
    ∀ (hay needle : List Char) (i : Nat), findSub hay needle = some i →
      occursAt hay needle i = true ∧ ∀ k, k < i → occursAt hay needle k = false := by
  intro hay
  induction hay with
  | nil =>
    intro needle i h
    unfold findSub at h
    by_cases hne : needle.isEmpty
    · simp only [hne, if_pos] at h
      cases h
      refine ⟨?_, fun k hk => absurd hk (Nat.not_lt_zero k)⟩
      rw [occursAt_zero, List.isEmpty_iff.mp hne]
      rfl
    · simp [hne] at h
  | cons c t ih =>
    intro needle i h
    unfold findSub at h
    by_cases hp : needle.isPrefixOf (c :: t)
    · simp only [hp, if_pos] at h
      cases h
      exact ⟨by rw [occursAt_zero]; exact hp, fun k hk => absurd hk (Nat.not_lt_zero k)⟩
    · simp only [hp, if_neg, Bool.false_eq_true, not_false_iff, Option.map_eq_some'] at h
      obtain ⟨j, hj, hji⟩ := h
      obtain ⟨hocc, hmin⟩ := ih needle j hj
      subst hji
      constructor
      · rw [occursAt_succ]; exact hocc
      · intro k hk
        match k with
        | 0 =>
          rw [occursAt_zero]
          exact Bool.eq_false_iff.mpr hp
        | k' + 1 =>
          rw [occursAt_succ]
          exact hmin k' (by omega)

/-- Any occurrence bounds the result of `findSub` from above: the first
occurrence is found. -/
theorem findSub_le_of_occursAt :
    ∀ (hay needle : List Char) (i : Nat), occursAt hay needle i = true →
      ∃ j, findSub hay needle = some j ∧ j ≤ i := by
  intro hay
  induction hay with
  | nil =>
    intro needle i h
    unfold occursAt at h
    rw [List.drop_nil] at h
    have : needle = [] := eq_nil_of_isPrefix_nil (isPrefixOf_iff.mp h)
    subst this
    exact ⟨0, by simp [findSub], Nat.zero_le i⟩
  | cons c t ih =>
    intro needle i h
    by_cases hp : needle.isPrefixOf (c :: t)
    · exact ⟨0, by simp [findSub, hp], Nat.zero_le i⟩
    · match i with
      | 0 =>
        rw [occursAt_zero] at h
        exact absurd h hp
      | i' + 1 =>
        rw [occursAt_succ] at h
        obtain ⟨j, hj, hle⟩ := ih needle i' h
        exact ⟨j + 1, by simp [findSub, hp, hj], by omega⟩

/-- An occurrence below which there is none is the result of `findSub`. -/
theorem findSub_eq_some (hay needle : List Char) (i : Nat)
    (hocc : occursAt hay needle i = true)
    (hmin : ∀ k, k < i → occursAt hay needle k = false) :
    findSub hay needle = some i := by
  obtain ⟨j, hj, hle⟩ := findSub_le_of_occursAt hay needle i hocc
  rcases Nat.lt_or_ge j i with hlt | hge
  · have hocc2 := (findSub_some hay needle j hj).1
    rw [hmin j hlt] at hocc2
    exact absurd hocc2 (by simp)
  · have : j = i := Nat.le_antisymm hle hge
    rw [← this]
    exact hj

/-- When nothing occurs, `findSub` reports failure. -/
theorem findSub_eq_none (hay needle : List Char)
    (h : ∀ i, occursAt hay needle i = false) : findSub hay needle = none := by
  cases hf : findSub hay needle with
  | none => rfl
  | some j =>
    have hocc := (findSub_some hay needle j hf).1
    rw [h j] at hocc
    exact absurd hocc (by simp)

/-- A nonempty needle cannot occur at or past the end of the haystack. -/
theorem occursAt_false_of_le (hay needle : List Char) (k : Nat)
    (hne : needle ≠ []) (h : hay.length ≤ k) : occursAt hay needle k = false := by
  unfold occursAt
  rw [List.drop_eq_nil_of_le h]
  cases needle with
  | nil => exact absurd rfl hne
  | cons c t => rfl

/-- A nonempty needle occurring at `i` fits inside the haystack. -/
theorem occursAt_add_length_le (hay needle : List Char) (i : Nat)
    (hne : needle ≠ []) (h : occursAt hay needle i = true) :
    i + needle.length ≤ hay.length := by
  have hp := isPrefixOf_iff.mp h
  have hlen := hp.length_le
  rw [List.length_drop] at hlen
  rcases le_or_lt i hay.length with hle | hlt
  · omega
  · exfalso
    rw [List.drop_eq_nil_of_le (Nat.le_of_lt hlt)] at hp
    exact hne (eq_nil_of_isPrefix_nil hp)

/-! ### Occurrences in a spliced text

`merge_files` rewrites the target to
`target.take (m + marker.length) ++ payload` where `m` is the first
occurrence of the marker.  The next lemmas show the first occurrence of
the marker in the rewritten text is again `m`. -/

/-- The occurrence at `m` survives truncation right after it. -/
theorem occursAt_spliced (tgt P needle : List Char) (m : Nat)
    (hne : needle ≠ []) (h : occursAt tgt needle m = true) :
    occursAt (tgt.take (m + needle.length) ++ P) needle m = true := by
  have hlen : m + needle.length ≤ tgt.length := occursAt_add_length_le tgt needle m hne h
  have htlen : (tgt.take (m + needle.length)).length = m + needle.length := by
    rw [List.length_take]
    omega
  unfold occursAt
  rw [List.drop_append_eq_append_drop, htlen]
  have h2 : m - (m + needle.length) = 0 := by omega
  rw [h2, List.drop_zero, List.drop_take]
  have h3 : m + needle.length - m = needle.length := by omega
  rw [h3]
  have h4 : needle = (tgt.drop m).take needle.length :=
    isPrefix_iff_eq_take.mp (isPrefixOf_iff.mp h)
  rw [← h4]
  exact isPrefixOf_iff.mpr (isPrefix_append_right needle P)

/-- An occurrence strictly before `m` in the spliced text already lies in
the preserved prefix, hence is an occurrence in the original target. -/
theorem occursAt_spliced_lt (tgt P needle : List Char) (m k : Nat)
    (hk : k < m) (hlen : m + needle.length ≤ tgt.length)
    (h : occursAt (tgt.take (m + needle.length) ++ P) needle k = true) :
    occursAt tgt needle k = true := by
  have htlen : (tgt.take (m + needle.length)).length = m + needle.length := by
    rw [List.length_take]
    omega
  have heq : needle = ((tgt.take (m + needle.length) ++ P).drop k).take needle.length :=
    isPrefix_iff_eq_take.mp (isPrefixOf_iff.mp h)
  have key : ∀ (X : List Char), (X.take (k + needle.length)).drop k = (X.drop k).take needle.length := by
    intro X
    rw [List.drop_take]
    congr 1
    omega
  have key3 : (tgt.take (m + needle.length) ++ P).take (k + needle.length)
      = tgt.take (k + needle.length) := by
    rw [List.take_append_eq_append_take, htlen]
    have h5 : k + needle.length - (m + needle.length) = 0 := by omega
    rw [h5, List.take_zero, List.append_nil, List.take_take]
    congr 1
    omega
  have hfin : needle = (tgt.drop k).take needle.length :=
    calc needle
        = ((tgt.take (m + needle.length) ++ P).drop k).take needle.length := heq
      _ = ((tgt.take (m + needle.length) ++ P).take (k + needle.length)).drop k :=
          (key (tgt.take (m + needle.length) ++ P)).symm
      _ = (tgt.take (k + needle.length)).drop k := by rw [key3]
      _ = (tgt.drop k).take needle.length := key tgt
  have hpre : needle <+: tgt.drop k := by
    rw [hfin]
    exact take_isPrefix _ _
  exact isPrefixOf_iff.mpr hpre

/-- The first occurrence of the needle in the spliced text is the same
index as in the original target. -/
theorem findSub_spliced (tgt P needle : List Char) (m : Nat)
    (hne : needle ≠ []) (h : findSub tgt needle = some m) :
    findSub (tgt.take (m + needle.length) ++ P) needle = some m := by
  obtain ⟨hocc, hmin⟩ := findSub_some tgt needle m h
  have hlen := occursAt_add_length_le tgt needle m hne hocc
  apply findSub_eq_some
  · exact occursAt_spliced tgt P needle m hne hocc
  · intro k hk
    cases hx : occursAt (tgt.take (m + needle.length) ++ P) needle k with
    | false => rfl
    | true =>
      have hx2 := occursAt_spliced_lt tgt P needle m k hk hlen hx
      rw [hmin k hk] at hx2
      exact absurd hx2 (by simp)

/-! ### Evaluation and inversion of `mergeCore` -/

theorem mergeCore_eq_ok (fs : FS) (s t : String) (src tgt : List Char) (i m : Nat)
    (hs : fsRead fs s = some src) (hi : findSub src includeToken = some i)
    (ht : fsRead fs t = some tgt) (hm : findSub tgt targetMarker = some m) :
    mergeCore fs s t = Except.ok
      (fsWrite fs t (tgt.take (m + targetMarker.length) ++ contentToCopy src i), successMsg) := by
  unfold mergeCore
  simp only [hs, hi, ht, hm]

theorem mergeCore_src_missing (fs : FS) (s t : String) (hs : fsRead fs s = none) :
    mergeCore fs s t = Except.error (MergeError.ioError (fileNotFoundMsg s)) := by
  unfold mergeCore
  simp only [hs]

theorem mergeCore_token_missing (fs : FS) (s t : String) (src : List Char)
    (hs : fsRead fs s = some src) (hi : findSub src includeToken = none) :
    mergeCore fs s t = Except.error (MergeError.markerNotFound (includeNotFoundMsg s)) := by
  unfold mergeCore
  simp only [hs, hi]

theorem mergeCore_tgt_missing (fs : FS) (s t : String) (src : List Char) (i : Nat)
    (hs : fsRead fs s = some src) (hi : findSub src includeToken = some i)
    (ht : fsRead fs t = none) :
    mergeCore fs s t = Except.error (MergeError.ioError (fileNotFoundMsg t)) := by
  unfold mergeCore
  simp only [hs, hi, ht]

theorem mergeCore_marker_missing (fs : FS) (s t : String) (src tgt : List Char) (i : Nat)
    (hs : fsRead fs s = some src) (hi : findSub src includeToken = some i)
    (ht : fsRead fs t = some tgt) (hm : findSub tgt targetMarker = none) :
    mergeCore fs s t = Except.error (MergeError.markerNotFound (markerNotFoundMsg t)) := by
  unfold mergeCore
  simp only [hs, hi, ht, hm]

theorem mergeCore_ok_inv (fs : FS) (s t : String) (fs2 : FS) (msg : List Char)
    (h : mergeCore fs s t = Except.ok (fs2, msg)) :
    ∃ src i tgt m, fsRead fs s = some src ∧ findSub src includeToken = some i ∧
      fsRead fs t = some tgt ∧ findSub tgt targetMarker = some m ∧
      fs2 = fsWrite fs t (tgt.take (m + targetMarker.length) ++ contentToCopy src i) ∧
      msg = successMsg := by
  unfold mergeCore at h
  cases hs : fsRead fs s with
  | none => simp [hs] at h
  | some src =>
    simp only [hs] at h
    cases hi : findSub src includeToken with
    | none => simp [hi] at h
    | some i =>
      simp only [hi] at h
      cases ht : fsRead fs t with
      | none => simp [ht] at h
      | some tgt =>
        simp only [ht] at h
        cases hm : findSub tgt targetMarker with
        | none => simp [hm] at h
        | some m =>
          simp only [hm, Except.ok.injEq, Prod.mk.injEq] at h
          exact ⟨src, i, tgt, m, rfl, hi, rfl, hm, h.1.symm, h.2.symm⟩

theorem merge_files_of_ok (fs : FS) (s t : String) (fs2 : FS) (msg : List Char)
    (h : mergeCore fs s t = Except.ok (fs2, msg)) :
    merge_files fs s t = (fs2, [(StdStream.out, msg)]) := by
  unfold merge_files
  rw [h]

theorem merge_files_of_error (fs : FS) (s t : String) (e : MergeError)
    (h : mergeCore fs s t = Except.error e) :
    merge_files fs s t = (fs, [(StdStream.out, errorPrefix ++ errMsg e)]) := by
  unfold merge_files
  rw [h]

theorem includeToken_ne_nil : includeToken ≠ [] := by decide

theorem targetMarker_ne_nil : targetMarker ≠ [] := by decide

/-- An occurrence that is the only one up to the haystack length is the
result of `findSub`. -/
theorem findSub_eq_of_unique (hay needle : List Char) (i : Nat)
    (hne : needle ≠ [])
    (hocc : occursAt hay needle i = true)
    (huniq : ∀ k, k < hay.length + 1 → occursAt hay needle k = true → k = i) :
    findSub hay needle = some i := by
  obtain ⟨j, hj, _⟩ := findSub_le_of_occursAt hay needle i hocc
  have hoccj := (findSub_some hay needle j hj).1
  have hlen := occursAt_add_length_le hay needle j hne hoccj
  have hji : j = i := huniq j (by omega) hoccj
  rw [← hji]
  exact hj

/-! ### The claims -/

/-- C2: when the source text lacks the boundary token, or the target text
lacks the marker, `merge_files` fails with the marker-not-found error (a
`ValueError` in the script, named `MarkerNotFoundError` by the spec) and the file
system — in particular the target file — is left byte-for-byte unchanged:
no write is performed. -/
theorem merge_missing_token_or_marker_fails_unchanged
    (fs : FS) (s t : String) (src tgt : List Char)
    (hs : fsRead fs s = some src) (ht : fsRead fs t = some tgt)
    (h : findSub src includeToken = none ∨ findSub tgt targetMarker = none) :
    (∃ msg, mergeCore fs s t = Except.error (MergeError.markerNotFound msg)) ∧
      (merge_files fs s t).1 = fs ∧
      fsRead (merge_files fs s t).1 t = some tgt := by
  have herr : ∃ msg, mergeCore fs s t = Except.error (MergeError.markerNotFound msg) := by
    rcases h with hnone | hnone
    · exact ⟨_, mergeCore_token_missing fs s t src hs hnone⟩
    · cases hi : findSub src includeToken with
      | none => exact ⟨_, mergeCore_token_missing fs s t src hs hi⟩
      | some i => exact ⟨_, mergeCore_marker_missing fs s t src tgt i hs hi ht hnone⟩
  obtain ⟨msg, hmsg⟩ := herr
  have hmf := merge_files_of_error fs s t _ hmsg
  refine ⟨⟨msg, hmsg⟩, ?_, ?_⟩
  · rw [hmf]
  · rw [hmf]
    exact ht

theorem merge_missing_token_or_marker_fails_unchanged_witness :
    (∃ msg, mergeCore [(("s" : String), "abc".data), (("t" : String), "xyz".data)] "s" "t"
        = Except.error (MergeError.markerNotFound msg)) ∧
      (merge_files [(("s" : String), "abc".data), (("t" : String), "xyz".data)] "s" "t").1
        = [(("s" : String), "abc".data), (("t" : String), "xyz".data)] ∧
      fsRead (merge_files [(("s" : String), "abc".data), (("t" : String), "xyz".data)] "s" "t").1 "t"
        = some "xyz".data :=
  merge_missing_token_or_marker_fails_unchanged
    [(("s" : String), "abc".data), (("t" : String), "xyz".data)] "s" "t"
    "abc".data "xyz".data (by decide) (by decide) (Or.inl (by decide))

/-- C3: for a target text containing the marker exactly once, ending at
index `j`, the merged target written back is exactly the original target
prefix of length `j` followed by the payload, and the prefix of length
`j` of the new text is the original prefix, unchanged at the seam. -/
theorem merge_splice_preserves_prefix_exactly
    (fs : FS) (s t : String) (src tgt : List Char) (i j : Nat)
    (hs : fsRead fs s = some src) (hi : findSub src includeToken = some i)
    (ht : fsRead fs t = some tgt)
    (hj : targetMarker.length ≤ j)
    (hocc : occursAt tgt targetMarker (j - targetMarker.length) = true)
    (huniq : ∀ k, k < tgt.length + 1 → occursAt tgt targetMarker k = true →
      k = j - targetMarker.length) :
    mergeCore fs s t = Except.ok
      (fsWrite fs t (tgt.take j ++ contentToCopy src i), successMsg) ∧
    (tgt.take j ++ contentToCopy src i).take j = tgt.take j := by
  have hm : findSub tgt targetMarker = some (j - targetMarker.length) :=
    findSub_eq_of_unique tgt targetMarker _ targetMarker_ne_nil hocc huniq
  have hlen := occursAt_add_length_le tgt targetMarker _ targetMarker_ne_nil hocc
  have hjj : j - targetMarker.length + targetMarker.length = j := by omega
  constructor
  · have hres := mergeCore_eq_ok fs s t src tgt i _ hs hi ht hm
    rw [hjj] at hres
    exact hres
  · have htl : (tgt.take j).length = j := by
      rw [List.length_take]
      omega
    rw [List.take_append_eq_append_take, htl, Nat.sub_self, List.take_zero, List.append_nil,
      List.take_take, Nat.min_self]

/-- C7: with several token occurrences in the source and several marker
occurrences in the target, `merge_files` silently uses the first
occurrence of each: the payload starts after the least token index, the
splice anchor is the least marker index, and the only output is the
success message. -/
theorem merge_uses_first_occurrences
    (fs : FS) (s t : String) (src tgt : List Char) (i1 i2 m1 m2 : Nat)
    (hs : fsRead fs s = some src) (ht : fsRead fs t = some tgt)
    (hi12 : i1 < i2)
    (ho1 : occursAt src includeToken i1 = true) (ho2 : occursAt src includeToken i2 = true)
    (hm12 : m1 < m2)
    (hq1 : occursAt tgt targetMarker m1 = true) (hq2 : occursAt tgt targetMarker m2 = true) :
    ∃ i m, i ≤ i1 ∧ m ≤ m1 ∧
      occursAt src includeToken i = true ∧
      (∀ k, k < i → occursAt src includeToken k = false) ∧
      occursAt tgt targetMarker m = true ∧
      (∀ k, k < m → occursAt tgt targetMarker k = false) ∧
      merge_files fs s t =
        (fsWrite fs t (tgt.take (m + targetMarker.length) ++ contentToCopy src i),
          [(StdStream.out, successMsg)]) := by
  obtain ⟨i, hi, hile⟩ := findSub_le_of_occursAt src includeToken i1 ho1
  obtain ⟨m, hm, hmle⟩ := findSub_le_of_occursAt tgt targetMarker m1 hq1
  obtain ⟨hoi, hmini⟩ := findSub_some src includeToken i hi
  obtain ⟨hom, hminm⟩ := findSub_some tgt targetMarker m hm
  exact ⟨i, m, hile, hmle, hoi, hmini, hom, hminm,
    merge_files_of_ok fs s t _ _ (mergeCore_eq_ok fs s t src tgt i m hs hi ht hm)⟩

/-- C8: whatever happens, the only path whose content can change is the
target path: every other file reads back unchanged after `merge_files`. -/
theorem merge_touches_only_target (fs : FS) (s t p : String) (hp : p ≠ t) :
    fsRead (merge_files fs s t).1 p = fsRead fs p := by
  cases h : mergeCore fs s t with
  | error e => rw [merge_files_of_error fs s t e h]
  | ok pair =>
    obtain ⟨fs2, msg⟩ := pair
    rw [merge_files_of_ok fs s t fs2 msg h]
    obtain ⟨src, i, tgt, m, _, _, _, _, hfs2, _⟩ := mergeCore_ok_inv fs s t fs2 msg h
    rw [hfs2]
    exact fsRead_fsWrite_ne fs t p _ hp

theorem merge_touches_only_target_witness :
    fsRead (merge_files [(("u" : String), "keep".data)] "s" "t").1 "u"
      = fsRead [(("u" : String), "keep".data)] "u" :=
  merge_touches_only_target [(("u" : String), "keep".data)] "s" "t" "u" (by decide)

theorem merge_splice_preserves_prefix_exactly_witness :
    mergeCore
        [(("s" : String), "#include <nlohmann/json.hpp>\nP".data),
         (("t" : String), "x".data ++ targetMarker)] "s" "t"
      = Except.ok
          (fsWrite
            [(("s" : String), "#include <nlohmann/json.hpp>\nP".data),
             (("t" : String), "x".data ++ targetMarker)] "t"
            (("x".data ++ targetMarker).take 68
              ++ contentToCopy "#include <nlohmann/json.hpp>\nP".data 0),
           successMsg) ∧
    (("x".data ++ targetMarker).take 68
        ++ contentToCopy "#include <nlohmann/json.hpp>\nP".data 0).take 68
      = ("x".data ++ targetMarker).take 68 :=
  merge_splice_preserves_prefix_exactly
    [(("s" : String), "#include <nlohmann/json.hpp>\nP".data),
     (("t" : String), "x".data ++ targetMarker)] "s" "t"
    "#include <nlohmann/json.hpp>\nP".data ("x".data ++ targetMarker) 0 68
    (by decide) (by decide) (by decide) (by decide) (by decide) (by decide)

theorem merge_uses_first_occurrences_witness :
    ∃ i m, i ≤ 0 ∧ m ≤ 1 ∧
      occursAt ("#include <nlohmann/json.hpp>\n#include <nlohmann/json.hpp>\n".data)
        includeToken i = true ∧
      (∀ k, k < i →
        occursAt ("#include <nlohmann/json.hpp>\n#include <nlohmann/json.hpp>\n".data)
          includeToken k = false) ∧
      occursAt ("x".data ++ targetMarker ++ targetMarker) targetMarker m = true ∧
      (∀ k, k < m →
        occursAt ("x".data ++ targetMarker ++ targetMarker) targetMarker k = false) ∧
      merge_files
          [(("s" : String), "#include <nlohmann/json.hpp>\n#include <nlohmann/json.hpp>\n".data),
           (("t" : String), "x".data ++ targetMarker ++ targetMarker)] "s" "t"
        = (fsWrite
            [(("s" : String), "#include <nlohmann/json.hpp>\n#include <nlohmann/json.hpp>\n".data),
             (("t" : String), "x".data ++ targetMarker ++ targetMarker)] "t"
            (("x".data ++ targetMarker ++ targetMarker).take (m + targetMarker.length)
              ++ contentToCopy
                  "#include <nlohmann/json.hpp>\n#include <nlohmann/json.hpp>\n".data i),
           [(StdStream.out, successMsg)]) :=
  merge_uses_first_occurrences
    [(("s" : String), "#include <nlohmann/json.hpp>\n#include <nlohmann/json.hpp>\n".data),
     (("t" : String), "x".data ++ targetMarker ++ targetMarker)] "s" "t"
    "#include <nlohmann/json.hpp>\n#include <nlohmann/json.hpp>\n".data
    ("x".data ++ targetMarker ++ targetMarker) 0 29 1 68
    (by decide) (by decide) (by decide) (by decide) (by decide) (by decide) (by decide)
    (by decide)

/-- C1 counterexample: a concrete pair of files on which `merge_files`
succeeds; running it a second time on the already-merged target leaves the
target equal to the single-payload result — the payload `P\n` does not
appear twice after the marker, contradicting the accumulation claim. -/
theorem merge_twice_payload_once_counterexample :
    fsRead (merge_files (merge_files
        [(("s" : String), "#include <nlohmann/json.hpp>\nP\n".data),
         (("t" : String), ('h' :: targetMarker) ++ "old".data)] "s" "t").1 "s" "t").1 "t"
      = some (('h' :: targetMarker) ++ "P\n".data) ∧
    fsRead (merge_files (merge_files
        [(("s" : String), "#include <nlohmann/json.hpp>\nP\n".data),
         (("t" : String), ('h' :: targetMarker) ++ "old".data)] "s" "t").1 "s" "t").1 "t"
      ≠ some (('h' :: targetMarker) ++ ("P\n".data ++ "P\n".data)) ∧
    fsRead (merge_files
        [(("s" : String), "#include <nlohmann/json.hpp>\nP\n".data),
         (("t" : String), ('h' :: targetMarker) ++ "old".data)] "s" "t").1 "t"
      = some (('h' :: targetMarker) ++ "P\n".data) := by
  decide

/-- C1 (amended): when `merge_files` succeeds and the source and target
paths differ, running it again with the same arguments succeeds again and
reproduces the very same file system: the marker anchor is re-found at its
original index, and the payload replaces the previously appended payload
instead of accumulating — the operation is idempotent on its output. -/
theorem merge_rerun_idempotent (fs : FS) (s t : String) (fs2 : FS) (msg : List Char)
    (hne : s ≠ t) (h : mergeCore fs s t = Except.ok (fs2, msg)) :
    mergeCore fs2 s t = Except.ok (fs2, msg) := by
  obtain ⟨src, i, tgt, m, hs, hi, ht, hm, hfs2, hmsg⟩ := mergeCore_ok_inv fs s t fs2 msg h
  have hs2 : fsRead fs2 s = some src := by
    rw [hfs2, fsRead_fsWrite_ne fs t s _ hne]
    exact hs
  have ht2 : fsRead fs2 t = some (tgt.take (m + targetMarker.length) ++ contentToCopy src i) := by
    rw [hfs2]
    exact fsRead_fsWrite_self fs t _
  have hm2 := findSub_spliced tgt (contentToCopy src i) targetMarker m targetMarker_ne_nil hm
  have hres := mergeCore_eq_ok fs2 s t src _ i m hs2 hi ht2 hm2
  have hocc := (findSub_some tgt targetMarker m hm).1
  have hlen := occursAt_add_length_le tgt targetMarker m targetMarker_ne_nil hocc
  have htl : (tgt.take (m + targetMarker.length)).length = m + targetMarker.length := by
    rw [List.length_take]
    omega
  have htake : (tgt.take (m + targetMarker.length)
        ++ contentToCopy src i).take (m + targetMarker.length)
      = tgt.take (m + targetMarker.length) := by
    rw [List.take_append_eq_append_take, htl, Nat.sub_self, List.take_zero, List.append_nil,
      List.take_take, Nat.min_self]
  rw [htake] at hres
  have hw : fsWrite fs2 t (tgt.take (m + targetMarker.length) ++ contentToCopy src i) = fs2 := by
    rw [hfs2, fsWrite_fsWrite]
  rw [hw, ← hmsg] at hres
  exact hres

theorem merge_rerun_idempotent_witness :
    mergeCore
        [(("s" : String), "#include <nlohmann/json.hpp>\nP\n".data),
         (("t" : String), ('h' :: targetMarker) ++ "P\n".data)] "s" "t"
      = Except.ok
          ([(("s" : String), "#include <nlohmann/json.hpp>\nP\n".data),
            (("t" : String), ('h' :: targetMarker) ++ "P\n".data)], successMsg) :=
  merge_rerun_idempotent
    [(("s" : String), "#include <nlohmann/json.hpp>\nP\n".data),
     (("t" : String), ('h' :: targetMarker) ++ "old".data)] "s" "t"
    [(("s" : String), "#include <nlohmann/json.hpp>\nP\n".data),
     (("t" : String), ('h' :: targetMarker) ++ "P\n".data)] successMsg
    (by decide) (by decide)

/-- C5 counterexample: a concrete failing input (the source text lacks the
boundary token) on which the script terminates with exit status 0 — not a
non-zero status — and every message it prints goes to standard output, so
nothing appears on the error stream. -/
theorem merge_failure_exit_zero_counterexample :
    (∃ e, mergeCore [(("s" : String), "abc".data)] "s" "t" = Except.error e) ∧
    (runScript [(("s" : String), "abc".data)] "s" "t").2.2 = 0 ∧
    (∀ msg ∈ (runScript [(("s" : String), "abc".data)] "s" "t").2.1,
      msg.1 = StdStream.out) :=
  ⟨⟨MergeError.markerNotFound (includeNotFoundMsg "s"), by decide⟩, by decide, by decide⟩

/-- C5 (amended): on every failing merge — missing file, missing boundary
token, or missing marker — the script prints the single human-readable
message `An error occurred: ...` on standard output, leaves the file
system untouched, and terminates with exit status 0; the error is caught,
not re-raised. -/
theorem merge_failure_prints_stdout_exits_zero (fs : FS) (s t : String) (e : MergeError)
    (h : mergeCore fs s t = Except.error e) :
    runScript fs s t = (fs, [(StdStream.out, errorPrefix ++ errMsg e)], 0) := by
  unfold runScript
  rw [merge_files_of_error fs s t e h]

theorem merge_failure_prints_stdout_exits_zero_witness :
    runScript [(("s" : String), "nope".data)] "s" "t"
      = ([(("s" : String), "nope".data)],
         [(StdStream.out,
            errorPrefix ++ errMsg (MergeError.markerNotFound (includeNotFoundMsg "s")))], 0) :=
  merge_failure_prints_stdout_exits_zero [(("s" : String), "nope".data)] "s" "t"
    (MergeError.markerNotFound (includeNotFoundMsg "s")) (by decide)

/-- C6 counterexample: on a concrete input whose target lacks the marker,
the failure message is `An error occurred: Marker not found in t` — it
names the target path but neither the marker block nor even the banner
lines occur anywhere in the printed message, so the message does not name
the missing marker. -/
theorem marker_error_message_counterexample :
    mergeCore [(("s" : String), "#include <nlohmann/json.hpp>\nP".data),
               (("t" : String), "xyz".data)] "s" "t"
      = Except.error (MergeError.markerNotFound (markerNotFoundMsg "t")) ∧
    findSub (errorPrefix ++ markerNotFoundMsg "t") targetMarker = none ∧
    findSub (errorPrefix ++ markerNotFoundMsg "t") bannerBlock = none := by
  decide

/-- C6 (amended): a missing boundary token is reported with a message
naming both the source path and the missing token; a missing marker is
reported with a message naming the target path only — the marker text
itself is not part of the message. -/
theorem merge_error_message_contents (fs : FS) (s t : String) (src tgt : List Char)
    (hs : fsRead fs s = some src) (ht : fsRead fs t = some tgt) :
    (findSub src includeToken = none →
      merge_files fs s t
        = (fs, [(StdStream.out,
            errorPrefix ++ (includeToken ++ " not found in ".data ++ s.data))])) ∧
    (∀ i, findSub src includeToken = some i → findSub tgt targetMarker = none →
      merge_files fs s t
        = (fs, [(StdStream.out,
            errorPrefix ++ ("Marker not found in ".data ++ t.data))])) := by
  constructor
  · intro hi
    rw [merge_files_of_error fs s t _ (mergeCore_token_missing fs s t src hs hi)]
    rfl
  · intro i hi hm
    rw [merge_files_of_error fs s t _ (mergeCore_marker_missing fs s t src tgt i hs hi ht hm)]
    rfl

theorem merge_error_message_contents_witness :
    (findSub "abc".data includeToken = none →
      merge_files [(("s" : String), "abc".data), (("t" : String), "xyz".data)] "s" "t"
        = ([(("s" : String), "abc".data), (("t" : String), "xyz".data)],
           [(StdStream.out,
              errorPrefix ++ (includeToken ++ " not found in ".data ++ "s".data))])) ∧
    (∀ i, findSub "abc".data includeToken = some i →
      findSub "xyz".data targetMarker = none →
      merge_files [(("s" : String), "abc".data), (("t" : String), "xyz".data)] "s" "t"
        = ([(("s" : String), "abc".data), (("t" : String), "xyz".data)],
           [(StdStream.out,
              errorPrefix ++ ("Marker not found in ".data ++ "t".data))])) :=
  merge_error_message_contents
    [(("s" : String), "abc".data), (("t" : String), "xyz".data)] "s" "t"
    "abc".data "xyz".data (by decide) (by decide)

/-- C4 counterexample: a source text containing the token exactly once at
index 0, where the character right after the token is `X` rather than a
newline.  The token line ends after the later newline, so the spec-side
payload is `rest`; the payload computed by the code is `\nrest` — it kept
the rest of the token line except one character.  The two differ. -/
theorem payload_token_line_counterexample :
    findSub "#include <nlohmann/json.hpp>X\nrest".data includeToken = some 0 ∧
    (∀ k, k < "#include <nlohmann/json.hpp>X\nrest".data.length + 1 →
      occursAt "#include <nlohmann/json.hpp>X\nrest".data includeToken k = true → k = 0) ∧
    contentToCopy "#include <nlohmann/json.hpp>X\nrest".data 0 = "\nrest".data ∧
    specPayloadAfterTokenLine "#include <nlohmann/json.hpp>X\nrest".data 0 = "rest".data ∧
    contentToCopy "#include <nlohmann/json.hpp>X\nrest".data 0
      ≠ specPayloadAfterTokenLine "#include <nlohmann/json.hpp>X\nrest".data 0 := by
  decide

/-- C4 (amended): for a source text containing the boundary token exactly
once at index `i`, where the token occurrence is immediately followed by a
newline or ends the text, the payload computed by the code equals the
source text from the end of the token line to end-of-text,
byte-for-byte (the token line itself excluded). -/
theorem payload_after_token_line (src : List Char) (i : Nat)
    (hocc : occursAt src includeToken i = true)
    (huniq : ∀ k, k < src.length + 1 → occursAt src includeToken k = true → k = i)
    (hnl : src.drop (i + includeToken.length) = [] ∨
      ∃ rest, src.drop (i + includeToken.length) = '\n' :: rest) :
    findSub src includeToken = some i ∧
    contentToCopy src i = specPayloadAfterTokenLine src i := by
  have h28 : includeToken.length = 28 := by decide
  have h29 : includeLine.length = 29 := by decide
  refine ⟨findSub_eq_of_unique src includeToken i includeToken_ne_nil hocc huniq, ?_⟩
  unfold contentToCopy specPayloadAfterTokenLine
  rcases hnl with hempty | ⟨rest, hrest⟩
  · have hle := List.drop_eq_nil_iff_le.mp hempty
    have hL : src.drop (i + includeLine.length) = [] :=
      List.drop_eq_nil_of_le (by omega)
    have hR : src.drop (i + includeToken.length
        + lineEndAux (src.drop (i + includeToken.length))) = [] :=
      List.drop_eq_nil_of_le (by omega)
    rw [hL, hR]
  · have hle1 : lineEndAux ('\n' :: rest) = 1 := by
      simp [lineEndAux]
    rw [hrest, hle1]
    have hidx : i + includeLine.length = i + includeToken.length + 1 := by omega
    rw [hidx]

theorem payload_after_token_line_witness :
    findSub "#include <nlohmann/json.hpp>\nrest".data includeToken = some 0 ∧
    contentToCopy "#include <nlohmann/json.hpp>\nrest".data 0
      = specPayloadAfterTokenLine "#include <nlohmann/json.hpp>\nrest".data 0 :=
  payload_after_token_line "#include <nlohmann/json.hpp>\nrest".data 0
    (by decide) (by decide) (Or.inr ⟨"rest".data, by decide⟩)

set_option maxRecDepth 10000 in
/-- C9 counterexample: a target text that begins with the two-line banner
at offset 0 (no preceding newline) on which merge nevertheless succeeds:
the banner occurs a second time right after the first copy, and that
second copy is preceded by the trailing newline of the first copy, so
the marker is found there.  The universal statement of the claim fails
on it. -/
theorem banner_at_zero_counterexample :
    bannerBlock.isPrefixOf (bannerBlock ++ bannerBlock) = true ∧
    mergeCore [(("s" : String), "#include <nlohmann/json.hpp>\nP\n".data),
               (("t" : String), bannerBlock ++ bannerBlock)] "s" "t"
      = Except.ok
          (fsWrite [(("s" : String), "#include <nlohmann/json.hpp>\nP\n".data),
                    (("t" : String), bannerBlock ++ bannerBlock)] "t"
            ((bannerBlock ++ bannerBlock).take 133 ++ "P\n".data),
           successMsg) := by
  decide

/-- C9 (amended): the marker is the banner with a leading newline
prepended, so a banner standing at offset 0 of the target can never match
it: whenever the target begins with the banner and the banner occurs
nowhere else in the target, merge fails reporting the marker as not
found, even though the banner lines appear verbatim, and the file system
is unchanged. -/
theorem banner_at_zero_only_marker_not_found (fs : FS) (s t : String) (src rest : List Char)
    (hs : fsRead fs s = some src) (hi : findSub src includeToken ≠ none)
    (ht : fsRead fs t = some (bannerBlock ++ rest))
    (honly : ∀ k, k < (bannerBlock ++ rest).length + 1 →
      occursAt (bannerBlock ++ rest) bannerBlock k = true → k = 0) :
    targetMarker = '\n' :: bannerBlock ∧
    occursAt (bannerBlock ++ rest) bannerBlock 0 = true ∧
    mergeCore fs s t = Except.error (MergeError.markerNotFound (markerNotFoundMsg t)) ∧
    (merge_files fs s t).1 = fs := by
  have hmarker : targetMarker = '\n' :: bannerBlock := by decide
  have hocc0 : occursAt (bannerBlock ++ rest) bannerBlock 0 = true := by
    rw [occursAt_zero]
    exact isPrefixOf_iff.mpr (isPrefix_append_right bannerBlock rest)
  have hnone : findSub (bannerBlock ++ rest) targetMarker = none := by
    apply findSub_eq_none
    intro j
    cases hx : occursAt (bannerBlock ++ rest) targetMarker j with
    | false => rfl
    | true =>
      exfalso
      have hpre := isPrefixOf_iff.mp hx
      rw [hmarker] at hpre
      obtain ⟨u, hu⟩ := hpre
      have hdrop : (bannerBlock ++ rest).drop (j + 1) = bannerBlock ++ u := by
        rw [← List.drop_drop, ← hu]
        rfl
      have hoccj : occursAt (bannerBlock ++ rest) bannerBlock (j + 1) = true := by
        unfold occursAt
        rw [hdrop]
        exact isPrefixOf_iff.mpr (isPrefix_append_right bannerBlock u)
      have hlenb := occursAt_add_length_le (bannerBlock ++ rest) bannerBlock (j + 1)
        (by decide) hoccj
      have hzero := honly (j + 1) (by omega) hoccj
      omega
  cases hfi : findSub src includeToken with
  | none => exact absurd hfi hi
  | some i =>
    have herr := mergeCore_marker_missing fs s t src (bannerBlock ++ rest) i hs hfi ht hnone
    exact ⟨hmarker, hocc0, herr, by rw [merge_files_of_error fs s t _ herr]⟩

theorem banner_at_zero_only_marker_not_found_witness :
    targetMarker = '\n' :: bannerBlock ∧
    occursAt (bannerBlock ++ "tail".data) bannerBlock 0 = true ∧
    mergeCore [(("s" : String), "#include <nlohmann/json.hpp>\nP\n".data),
               (("t" : String), bannerBlock ++ "tail".data)] "s" "t"
      = Except.error (MergeError.markerNotFound (markerNotFoundMsg "t")) ∧
    (merge_files [(("s" : String), "#include <nlohmann/json.hpp>\nP\n".data),
                  (("t" : String), bannerBlock ++ "tail".data)] "s" "t").1
      = [(("s" : String), "#include <nlohmann/json.hpp>\nP\n".data),
         (("t" : String), bannerBlock ++ "tail".data)] :=
  banner_at_zero_only_marker_not_found
    [(("s" : String), "#include <nlohmann/json.hpp>\nP\n".data),
     (("t" : String), bannerBlock ++ "tail".data)] "s" "t"
    "#include <nlohmann/json.hpp>\nP\n".data "tail".data
    (by decide) (by decide) (by decide) (by decide)

/-- C10 counterexample: a source text that ends exactly with the token
(no trailing newline) on which the payload is not empty: the token also
occurs at index 0, the code uses that first occurrence, and the payload
is the whole final token.  The universal statement of the claim about
sources ending with the token fails on it. -/
theorem token_at_end_counterexample :
    ("#include <nlohmann/json.hpp>\n#include <nlohmann/json.hpp>".data).drop
        (("#include <nlohmann/json.hpp>\n#include <nlohmann/json.hpp>".data).length
          - includeToken.length)
      = includeToken ∧
    findSub "#include <nlohmann/json.hpp>\n#include <nlohmann/json.hpp>".data includeToken
      = some 0 ∧
    contentToCopy "#include <nlohmann/json.hpp>\n#include <nlohmann/json.hpp>".data 0
      = includeToken ∧
    contentToCopy "#include <nlohmann/json.hpp>\n#include <nlohmann/json.hpp>".data 0
      ≠ [] := by
  decide

/-- C10 (amended): the slice of line 12 skips exactly one character after
the found token without checking that it is a newline: when the character
immediately after the first token occurrence is not a newline it is
dropped from the payload all the same; and when the first token
occurrence extends to the very end of the source (no trailing newline),
the slice starts past the end of the text, so merge succeeds with an
empty payload rather than failing. -/
theorem payload_slice_skips_one_char (fs : FS) (s t : String) (src tgt : List Char)
    (i m : Nat)
    (hs : fsRead fs s = some src) (hi : findSub src includeToken = some i)
    (ht : fsRead fs t = some tgt) (hm : findSub tgt targetMarker = some m) :
    (∀ c rest, src.drop (i + includeToken.length) = c :: rest → c ≠ '\n' →
      contentToCopy src i = rest) ∧
    (i + includeToken.length = src.length →
      contentToCopy src i = [] ∧
      mergeCore fs s t = Except.ok
        (fsWrite fs t (tgt.take (m + targetMarker.length)), successMsg)) := by
  have h28 : includeToken.length = 28 := by decide
  have h29 : includeLine.length = 29 := by decide
  constructor
  · intro c rest hcr _
    unfold contentToCopy
    have hidx : i + includeLine.length = i + includeToken.length + 1 := by omega
    have h1 : src.drop (i + includeLine.length) = (src.drop (i + includeToken.length)).drop 1 := by
      rw [hidx, ← List.drop_drop 1 (i + includeToken.length) src]
    rw [h1, hcr]
    rfl
  · intro hend
    have hempty : contentToCopy src i = [] := by
      unfold contentToCopy
      apply List.drop_eq_nil_of_le
      omega
    refine ⟨hempty, ?_⟩
    have hres := mergeCore_eq_ok fs s t src tgt i m hs hi ht hm
    rw [hempty, List.append_nil] at hres
    exact hres

theorem payload_slice_skips_one_char_witness :
    (∀ c rest,
      ("#include <nlohmann/json.hpp>".data).drop (0 + includeToken.length) = c :: rest →
      c ≠ '\n' → contentToCopy "#include <nlohmann/json.hpp>".data 0 = rest) ∧
    (0 + includeToken.length = ("#include <nlohmann/json.hpp>".data).length →
      contentToCopy "#include <nlohmann/json.hpp>".data 0 = [] ∧
      mergeCore [(("s" : String), "#include <nlohmann/json.hpp>".data),
                 (("t" : String), 'h' :: targetMarker)] "s" "t"
        = Except.ok
            (fsWrite [(("s" : String), "#include <nlohmann/json.hpp>".data),
                      (("t" : String), 'h' :: targetMarker)] "t"
              (('h' :: targetMarker).take (1 + targetMarker.length)),
             successMsg)) :=
  payload_slice_skips_one_char
    [(("s" : String), "#include <nlohmann/json.hpp>".data),
     (("t" : String), 'h' :: targetMarker)] "s" "t"
    "#include <nlohmann/json.hpp>".data ('h' :: targetMarker) 0 1
    (by decide) (by decide) (by decide) (by decide)

end LunarLog
